import Mathlib

/-!
Verification development for the input-field-finder crawler.

The definitions below are a shallow embedding of the Go source
(`main.go` and the earlier program iterations shipped alongside it):
the URL value type, the whitelist test, the frontier (`addURL`), the
anchor-normalization branch of `getAnchors`, the input-element
extraction (`getInputs`), the per-URL worker (`dataRouter`), and the
wait-group based completion protocol of `main`.  Strings are Lean
`String`s (lists of characters); Go byte-indexing on URLs is modelled
character-wise, which agrees with Go on the ASCII URL strings involved.
-/

namespace InputFieldFinder

/-- Model of the fields of Go `net/url.URL` that the program reads or
writes: `Scheme`, `Host` (including any port), `Path`, `RawQuery` and
`Fragment`.  `Opaque` and `User` are never set by this program and are
omitted. -/
structure GoURL where
  scheme : String
  host : String
  path : String
  query : String
  fragment : String
deriving DecidableEq, Repr

/-- Go substring `s[:n]`, modelled character-wise on the underlying
character list (the URL strings involved are ASCII, where Go byte
slicing and character slicing agree). -/
def strTake (s : String) (n : Nat) : String :=
  String.mk (s.data.take n)

/-- Go `strings.ToLower`, modelled character-wise; on the basic latin
range this is exactly the Go behaviour. -/
def goToLower (s : String) : String :=
  String.mk (s.data.map Char.toLower)

/-- Model of Go `url.URL.String()` restricted to the modelled fields:
writes `scheme:` when the scheme is nonempty, the `//host` authority
when scheme or host is nonempty, then the path (with a `/` inserted
when a relative path follows a host), then `?query` and `#fragment`. -/
def urlString (u : GoURL) : String :=
  (if u.scheme ≠ "" then u.scheme ++ ":" else "") ++
  (if (u.scheme ≠ "" ∨ u.host ≠ "") ∧ (u.host ≠ "" ∨ u.path ≠ "") then
      "//" ++ u.host
    else "") ++
  (if u.path ≠ "" ∧ strTake u.path 1 ≠ "/" ∧ u.host ≠ "" then "/" ++ u.path
    else u.path) ++
  (if u.query ≠ "" then "?" ++ u.query else "") ++
  (if u.fragment ≠ "" then "#" ++ u.fragment else "")

/-- The fragment strip `urlValue.Fragment = ""` performed by `main` and
by `addURL` before the URL string is rebuilt. -/
def stripFragment (u : GoURL) : GoURL :=
  { u with fragment := "" }

/-- Embedding of `isWhitelisted` (main.go): a URL passes iff some
whitelist target has the same scheme and the same host under
`strings.ToLower` comparison.  The Go loop with early return is the
list `any`. -/
def isWhitelisted (targets : List GoURL) (u : GoURL) : Bool :=
  targets.any (fun t =>
    goToLower u.scheme = goToLower t.scheme ∧
    goToLower u.host = goToLower t.host)

/-- Go `strings.HasSuffix(s, "/")` followed by `s[:len(s)-1]`: drop a
trailing slash character if present, as in `addURL` (main.go). -/
def stripTrailingSlash (s : String) : String :=
  if s.data.getLast? = some '/' then String.mk s.data.dropLast else s

/-- The crawl state shared through the `visited` mutex of main.go:
the set of visited URL strings (the keys of `visited.URLs`) and the
trace of URLs handed to `dataRouter` (the fetcher invocations), in
order. -/
structure CrawlState where
  visited : List String
  fetched : List GoURL
deriving DecidableEq, Repr

/-- The empty crawl state (`visited = make(map[string]bool)`, nothing
fetched). -/
def initState : CrawlState :=
  { visited := [], fetched := [] }

/-- Embedding of `addURL` (main.go), returning the new state together
with the flag of whether the URL was accepted (fetched).  The body of
the Go function: whitelist check; fragment strip; rebuild the string;
compute the no-trailing-slash form; under the mutex, if neither form is
a key of the visited map, mark `urlValue.String()` visited and start
`dataRouter(urlValue)`. -/
def addURLb (targets : List GoURL) (st : CrawlState) (u : GoURL) :
    CrawlState × Bool :=
  if isWhitelisted targets u then
    let u1 := stripFragment u
    let s := urlString u1
    let sNoSlash := stripTrailingSlash s
    if s ∈ st.visited ∨ sNoSlash ∈ st.visited then (st, false)
    else ({ visited := s :: st.visited, fetched := st.fetched ++ [u1] }, true)
  else (st, false)

/-- The state transformer of one `addURL` call. -/
def addURL (targets : List GoURL) (st : CrawlState) (u : GoURL) : CrawlState :=
  (addURLb targets st u).1

/-- A sequence of `addURL` calls in the order the `visited` mutex
serializes them. -/
def runOffers (targets : List GoURL) (st : CrawlState)
    (offers : List GoURL) : CrawlState :=
  offers.foldl (addURL targets) st

/-- Embedding of the relative-URL branch of `getAnchors` (main.go):
after a successful parse with a nonempty string form, the code runs
`if urlValue.Scheme == "" && urlValue.String()[:1] == "/"` (inherit the
scheme and the host of the current page), `else if urlValue.Scheme ==
"" && urlValue.String()[:2] == "//"` (inherit the scheme only).  Go
slicing `s[:n]` panics when `len(s) < n`; a panic is modelled as
`none`.  The `&&` short-circuit is preserved: the slices are evaluated
only when the scheme is empty. -/
def normalizeHref (currentURL urlValue : GoURL) : Option GoURL :=
  let s := urlString urlValue
  if urlValue.scheme = "" then
    if s.data.length < 1 then none
    else if strTake s 1 = "/" then
      some { urlValue with scheme := currentURL.scheme, host := currentURL.host }
    else if s.data.length < 2 then none
    else if strTake s 2 = "//" then
      some { urlValue with scheme := currentURL.scheme }
    else some urlValue
  else some urlValue

/-- The node kinds of `golang.org/x/net/html.Node` that the traversals
test (`html.ElementNode`) or skip. -/
inductive NodeKind where
  | element
  | text
  | document
  | comment
  | doctype
deriving DecidableEq, Repr

/-- Model of `html.Node`: kind, the `DataAtom` tag name, the attribute
list in source order, and the `FirstChild` / `NextSibling` links, with
`nil` for a missing link, exactly as in the Go struct. -/
inductive HtmlNode where
  | nil
  | node (kind : NodeKind) (dataAtom : String)
      (attrs : List (String × String))
      (firstChild : HtmlNode) (nextSibling : HtmlNode)
deriving DecidableEq, Repr

/-- Go `strings.Replace(s, "\n", "", -1)`: remove every newline
character. -/
def removeNewlines (s : String) : String :=
  String.mk (s.data.filter (fun c => c ≠ '\n'))

/-- The reconstruction of one input element in `getInputs` (main.go):
`"<input "` followed by `fmt.Sprintf(" %s=\"%s\"", key, val)` for each
attribute in source order, then `"></input>"`, with newline characters
removed. -/
def reconstructInput (attrs : List (String × String)) : String :=
  removeNewlines
    ("<input " ++
      String.join (attrs.map (fun a => " " ++ a.1 ++ "=\"" ++ a.2 ++ "\"")) ++
      "></input>")

/-- The recursive `nodeSearch` of `getInputs`: collect the
reconstruction of every node with `Type == ElementNode && DataAtom ==
Input`, in depth-first pre-order.  The recursion on `nextSibling`
models the Go loop over the child chain. -/
def collectInputs : HtmlNode → List String
  | .nil => []
  | .node kind dataAtom attrs firstChild nextSibling =>
      (if kind = NodeKind.element ∧ dataAtom = "input" then
        [reconstructInput attrs] else []) ++
      collectInputs firstChild ++ collectInputs nextSibling

/-- The stdout text produced by `getInputs` (main.go) for one page:
nothing when no input was found, otherwise the page URL in square
brackets on its own line, each reconstructed element on a tab-indented
line, and one empty line. -/
def getInputsOutput (document : HtmlNode) (urlValue : GoURL) : String :=
  let inputs := collectInputs document
  if inputs.length > 0 then
    "[" ++ urlString urlValue ++ "]\n" ++
    String.join (inputs.map (fun i => "\t" ++ i ++ "\n")) ++ "\n"
  else ""

/-- Embedding of the `switch *flagConcurrency` of the concurrency-flag
program iteration: level 0 gives 1 worker, 1 gives 5, 2 gives 10, 4
gives 50, 5 gives 100, and every other value (including the default
level 3) falls to the `default` arm giving 20. -/
def maxWorkersOfLevel (level : Nat) : Nat :=
  if level = 0 then 1
  else if level = 1 then 5
  else if level = 2 then 10
  else if level = 4 then 50
  else if level = 5 then 100
  else 20

/-- The worker counts observed after each spawn of the inner dispatch
loop of the concurrency-flag iteration: each queue element increments
`workerCount`; when the count reaches `maxWorkers` the loop waits for
the group and resets the count to zero. -/
def loopCounts (maxWorkers : Nat) : List GoURL → Nat → List Nat
  | [], _ => []
  | _ :: rest, workerCount =>
      let workerCount1 := workerCount + 1
      if workerCount1 ≥ maxWorkers then
        workerCount1 :: loopCounts maxWorkers rest 0
      else
        workerCount1 :: loopCounts maxWorkers rest workerCount1

/-- The outcome of `html.Parse(response.Body)` inside `dataRouter`. -/
inductive ParseOutcome where
  | parseError (msg : String)
  | parsed (document : HtmlNode)
deriving DecidableEq, Repr

/-- The outcome of one `client.Get` inside `dataRouter`: a transport
error, or a body handed to the HTML parser. -/
inductive FetchOutcome where
  | getError (msg : String)
  | gotBody (parse : ParseOutcome)
deriving DecidableEq, Repr

/-- What one `dataRouter` call (main.go) does with its URL: abandon it
after logging (the two early returns), process the parsed document
(spawning `getAnchors` and `getInputs`), or crash the crawl (no source
path produces this). -/
inductive RouterOutcome where
  | abandoned (logMessage : String)
  | processed (document : HtmlNode)
  | crashed
deriving DecidableEq, Repr

/-- Embedding of the body of `dataRouter` (main.go) given the fetch
outcome: a `client.Get` error or an `html.Parse` error is logged with
`log.Printf("[ERROR] [%s] %s", url, err)` and the function returns; on
success the document is processed.  The log text is modelled without
the logger timestamp. -/
def dataRouterModel (urlValue : GoURL) (outcome : FetchOutcome) :
    RouterOutcome :=
  match outcome with
  | .getError msg =>
      .abandoned ("[ERROR] [" ++ urlString urlValue ++ "] " ++ msg)
  | .gotBody (.parseError msg) =>
      .abandoned ("[ERROR] [" ++ urlString urlValue ++ "] " ++ msg)
  | .gotBody (.parsed document) => .processed document

/-- One `dataRouter` call against a stream of pending network
responses: the single `client.Get` of the body consumes exactly the
first response; the rest of the stream is untouched (the function
never loops or retries). -/
def dataRouterRun (urlValue : GoURL) (responses : List FetchOutcome) :
    RouterOutcome × List FetchOutcome :=
  match responses with
  | [] => (.crashed, [])
  | outcome :: rest => (dataRouterModel urlValue outcome, rest)

/-- State of the concurrent crawl of main.go: the mutex-protected
crawl state, the multiset of live `dataRouter` workers (each carrying
the list of in-scope-candidate links it has still to offer through
`addURL`), and the `URLsInProcess` wait-group counter. -/
structure SysState where
  base : CrawlState
  workers : List (List GoURL)
  counter : Nat
deriving DecidableEq, Repr

/-- One `addURL` call in the concurrent system, with `workers1` the
worker pool after the caller has moved past this offer.  When the URL
is accepted, `URLsInProcess.Add(1)` runs inside the same critical
section and `go dataRouter(urlValue)` spawns a worker whose future
offers are the links of the fetched page, given by the environment
`pages` (a fetch or parse failure is a page with no links). -/
def offerInto (targets : List GoURL) (pages : String → List GoURL)
    (s : SysState) (workers1 : List (List GoURL)) (u : GoURL) : SysState :=
  let r := addURLb targets s.base u
  if r.2 then
    { base := r.1,
      workers := workers1 ++ [pages (urlString (stripFragment u))],
      counter := s.counter + 1 }
  else
    { base := r.1, workers := workers1, counter := s.counter }

/-- Worker `workerIdx` performs its next `addURL` call. -/
def offerStep (targets : List GoURL) (pages : String → List GoURL)
    (s : SysState) (workerIdx : Nat) (rest : List GoURL) (u : GoURL) :
    SysState :=
  offerInto targets pages s (s.workers.set workerIdx rest) u

/-- Interleaving semantics of the crawl of main.go.  A step is either
one worker performing its next `addURL` call (atomic by the `visited`
mutex), or a worker whose discovery is complete running its deferred
`URLsInProcess.Done()` and terminating.  `main` itself blocks in
`URLsInProcess.Wait()`, which returns exactly when the counter is
zero. -/
inductive Step (targets : List GoURL) (pages : String → List GoURL) :
    SysState → SysState → Prop where
  | offer (s : SysState) (workerIdx : Nat) (u : GoURL) (rest : List GoURL)
      (h : s.workers.get? workerIdx = some (u :: rest)) :
      Step targets pages s (offerStep targets pages s workerIdx rest u)
  | finish (s : SysState) (workerIdx : Nat)
      (h : s.workers.get? workerIdx = some []) :
      Step targets pages s
        { base := s.base,
          workers := s.workers.eraseIdx workerIdx,
          counter := s.counter - 1 }

/-- Reachability of the crawl system under interleaved worker steps. -/
inductive Reach (targets : List GoURL) (pages : String → List GoURL) :
    SysState → SysState → Prop where
  | refl (s : SysState) : Reach targets pages s s
  | tail (s t v : SysState) (hr : Reach targets pages s t)
      (hs : Step targets pages t v) : Reach targets pages s v

/-- The seeding loop of `main`: every seed URL is offered through
`addURL` from the main goroutine before `main` reaches
`URLsInProcess.Wait()`. -/
def initSys (targets : List GoURL) (pages : String → List GoURL)
    (seeds : List GoURL) : SysState :=
  seeds.foldl (fun s u => offerInto targets pages s s.workers u)
    { base := initState, workers := [], counter := 0 }

/-- Invariant of the crawl state: every fetched URL has its canonical
string in the visited set, and no two fetched URLs share a canonical
string. -/
abbrev FetchedInv (st : CrawlState) : Prop :=
  (∀ v ∈ st.fetched, urlString v ∈ st.visited) ∧
  (st.fetched.map urlString).Nodup

/-- Invariant of the crawl state: every fetched URL passed the
whitelist check. -/
abbrev ScopeInv (targets : List GoURL) (st : CrawlState) : Prop :=
  ∀ v ∈ st.fetched, isWhitelisted targets v = true

/-- Concrete seed target `http://a.com/`. -/
def seedA : GoURL :=
  { scheme := "http", host := "a.com", path := "/", query := "", fragment := "" }

/-- Concrete URL `http://a.com/x/` (trailing-slash form). -/
def urlXSlash : GoURL :=
  { scheme := "http", host := "a.com", path := "/x/", query := "", fragment := "" }

/-- Concrete URL `http://a.com/x` (no-trailing-slash form). -/
def urlXNoSlash : GoURL :=
  { scheme := "http", host := "a.com", path := "/x", query := "", fragment := "" }

/-- Concrete base page `http://a.com/page`. -/
def baseA : GoURL :=
  { scheme := "http", host := "a.com", path := "/page", query := "", fragment := "" }

/-- The parse of the scheme-relative href `//cdn.a.com/x`: empty
scheme, host `cdn.a.com`, path `/x`. -/
def hrefSchemeRel : GoURL :=
  { scheme := "", host := "cdn.a.com", path := "/x", query := "", fragment := "" }

/-- A page consisting of one `<input name="q" type="text">` element
inside `html`/`body`, as the HTML parser would deliver it. -/
def examplePage : HtmlNode :=
  HtmlNode.node NodeKind.document "" []
    (HtmlNode.node NodeKind.element "html" []
      (HtmlNode.node NodeKind.element "body" []
        (HtmlNode.node NodeKind.element "input"
          [("name", "q"), ("type", "text")] HtmlNode.nil HtmlNode.nil)
        HtmlNode.nil)
      HtmlNode.nil)
    HtmlNode.nil

/-- The canonical URL `http://example.com/`. -/
def exampleURL : GoURL :=
  { scheme := "http", host := "example.com", path := "/", query := "", fragment := "" }

/-- A page with two input elements separated by an anchor, the second
input carrying an embedded newline in an attribute value. -/
def twoInputsPage : HtmlNode :=
  HtmlNode.node NodeKind.document "" []
    (HtmlNode.node NodeKind.element "body" []
      (HtmlNode.node NodeKind.element "input" [("id", "first")] HtmlNode.nil
        (HtmlNode.node NodeKind.element "a" [("href", "/x")] HtmlNode.nil
          (HtmlNode.node NodeKind.element "input" [("id", "second\nline")]
            HtmlNode.nil HtmlNode.nil)))
      HtmlNode.nil)
    HtmlNode.nil

/-- A page with an anchor and no input elements. -/
def noInputsPage : HtmlNode :=
  HtmlNode.node NodeKind.document "" []
    (HtmlNode.node NodeKind.element "body" []
      (HtmlNode.node NodeKind.element "a" [("href", "/x")] HtmlNode.nil
        HtmlNode.nil)
      HtmlNode.nil)
    HtmlNode.nil

lemma string_mk_data (s : String) : String.mk s.data = s := by
  cases s
  rfl

lemma isWhitelisted_stripFragment (targets : List GoURL) (u : GoURL) :
    isWhitelisted targets (stripFragment u) = isWhitelisted targets u := rfl

lemma addURLb_cases (targets : List GoURL) (st : CrawlState) (u : GoURL) :
    addURLb targets st u = (st, false) ∨
      (isWhitelisted targets u = true ∧
        urlString (stripFragment u) ∉ st.visited ∧
        addURLb targets st u =
          ({ visited := urlString (stripFragment u) :: st.visited,
             fetched := st.fetched ++ [stripFragment u] }, true)) := by
  by_cases hw : isWhitelisted targets u = true
  · by_cases hv : urlString (stripFragment u) ∈ st.visited ∨
        stripTrailingSlash (urlString (stripFragment u)) ∈ st.visited
    · left
      simp [addURLb, hw, hv]
    · right
      refine ⟨hw, fun hmem => hv (Or.inl hmem), ?_⟩
      simp [addURLb, hw, hv]
  · left
    simp [addURLb, hw]

lemma visited_mono (targets : List GoURL) (st : CrawlState) (u : GoURL) :
    st.visited ⊆ (addURL targets st u).visited := by
  rcases addURLb_cases targets st u with h | ⟨-, -, h⟩
  · unfold addURL
    rw [h]
    exact fun a ha => ha
  · unfold addURL
    rw [h]
    exact List.subset_cons_self _ _

lemma addURL_noop_of_visited (targets : List GoURL) (st : CrawlState)
    (u : GoURL) (h : urlString (stripFragment u) ∈ st.visited) :
    addURL targets st u = st := by
  rcases addURLb_cases targets st u with hc | ⟨-, hnv, -⟩
  · unfold addURL
    rw [hc]
  · exact absurd h hnv

lemma fetchedInv_addURL (targets : List GoURL) (st : CrawlState) (u : GoURL)
    (hInv : FetchedInv st) : FetchedInv (addURL targets st u) := by
  rcases addURLb_cases targets st u with hc | ⟨-, hnv, hc⟩
  · unfold addURL
    rw [hc]
    exact hInv
  · unfold addURL
    rw [hc]
    obtain ⟨hsub, hnd⟩ := hInv
    constructor
    · intro v hv
      rcases List.mem_append.mp hv with hv | hv
      · exact List.mem_cons_of_mem _ (hsub v hv)
      · rw [List.mem_singleton.mp hv]
        exact List.mem_cons_self _ _
    · have hnotmem :
          urlString (stripFragment u) ∉ st.fetched.map urlString := by
        intro hmem
        obtain ⟨v, hv, heq⟩ := List.mem_map.mp hmem
        exact hnv (heq ▸ hsub v hv)
      rw [List.map_append]
      rw [List.nodup_append]
      refine ⟨hnd, List.nodup_singleton _, ?_⟩
      intro a ha hb
      rw [List.map_singleton, List.mem_singleton] at hb
      exact hnotmem (hb ▸ ha)

lemma scopeInv_addURL (targets : List GoURL) (st : CrawlState) (u : GoURL)
    (hInv : ScopeInv targets st) : ScopeInv targets (addURL targets st u) := by
  rcases addURLb_cases targets st u with hc | ⟨hw, -, hc⟩
  · unfold addURL
    rw [hc]
    exact hInv
  · unfold addURL
    rw [hc]
    intro v hv
    rcases List.mem_append.mp hv with hv | hv
    · exact hInv v hv
    · rw [List.mem_singleton.mp hv, isWhitelisted_stripFragment]
      exact hw

lemma offerInto_base (targets : List GoURL) (pages : String → List GoURL)
    (s : SysState) (workers1 : List (List GoURL)) (u : GoURL) :
    (offerInto targets pages s workers1 u).base = addURL targets s.base u := by
  simp only [offerInto, addURL]
  split <;> rfl

lemma step_base (targets : List GoURL) (pages : String → List GoURL)
    (s t : SysState) (h : Step targets pages s t) :
    t.base = s.base ∨ ∃ u, t.base = addURL targets s.base u := by
  cases h with
  | offer workerIdx u rest hg =>
      right
      exact ⟨u, offerInto_base targets pages s _ u⟩
  | finish workerIdx hg =>
      left
      rfl

lemma counterInv_offerInto (targets : List GoURL)
    (pages : String → List GoURL) (s : SysState)
    (workers1 : List (List GoURL)) (u : GoURL)
    (h : s.counter = workers1.length) :
    (offerInto targets pages s workers1 u).counter =
      (offerInto targets pages s workers1 u).workers.length := by
  simp only [offerInto]
  split
  · simp [h]
  · simpa using h

lemma counterInv_step (targets : List GoURL) (pages : String → List GoURL)
    (s t : SysState) (hInv : s.counter = s.workers.length)
    (h : Step targets pages s t) : t.counter = t.workers.length := by
  cases h with
  | offer workerIdx u rest hg =>
      exact counterInv_offerInto targets pages s _ u
        (by rw [List.length_set]; exact hInv)
  | finish workerIdx hg =>
      have hi : workerIdx < s.workers.length := by
        rcases List.get?_eq_some.mp hg with ⟨hi, -⟩
        exact hi
      have hlen := List.length_eraseIdx_add_one hi
      show s.counter - 1 = (s.workers.eraseIdx workerIdx).length
      omega

lemma reach_counterInv (targets : List GoURL) (pages : String → List GoURL)
    (s0 s : SysState) (h0 : s0.counter = s0.workers.length)
    (hr : Reach targets pages s0 s) : s.counter = s.workers.length := by
  induction hr with
  | refl => exact h0
  | tail t v hrt hs ih => exact counterInv_step targets pages t v ih hs

lemma reach_base_inv (targets : List GoURL) (pages : String → List GoURL)
    (P : CrawlState → Prop)
    (hP : ∀ st u, P st → P (addURL targets st u))
    (s0 s : SysState) (h0 : P s0.base) (hr : Reach targets pages s0 s) :
    P s.base := by
  induction hr with
  | refl => exact h0
  | tail t v hrt hs ih =>
      rcases step_base targets pages t v hs with heq | ⟨u, heq⟩
      · rw [heq]
        exact ih
      · rw [heq]
        exact hP t.base u ih

lemma no_step_of_no_workers (targets : List GoURL)
    (pages : String → List GoURL) (s : SysState) (h : s.workers = [])
    (t : SysState) : ¬ Step targets pages s t := by
  intro hs
  cases hs with
  | offer workerIdx u rest hg =>
      rw [h] at hg
      simp at hg
  | finish workerIdx hg =>
      rw [h] at hg
      simp at hg

lemma progress_of_workers (targets : List GoURL)
    (pages : String → List GoURL) (s : SysState) (h : s.workers ≠ []) :
    ∃ t, Step targets pages s t := by
  rcases hws : s.workers with - | ⟨w, ws⟩
  · exact absurd hws h
  · rcases w with - | ⟨u, rest⟩
    · exact ⟨_, Step.finish s 0 (by rw [hws]; rfl)⟩
    · exact ⟨_, Step.offer s 0 u rest (by rw [hws]; rfl)⟩

lemma loopCounts_le (maxWorkers : Nat) (hpos : 0 < maxWorkers)
    (queue : List GoURL) :
    ∀ workerCount, workerCount < maxWorkers →
      ∀ c ∈ loopCounts maxWorkers queue workerCount, c ≤ maxWorkers := by
  induction queue with
  | nil =>
      intro workerCount hwc c hc
      simp [loopCounts] at hc
  | cons q rest ih =>
      intro workerCount hwc c hc
      simp only [loopCounts] at hc
      by_cases hge : workerCount + 1 ≥ maxWorkers
      · rw [if_pos hge] at hc
        rcases List.mem_cons.mp hc with h | h
        · omega
        · exact ih 0 hpos c h
      · rw [if_neg hge] at hc
        rcases List.mem_cons.mp hc with h | h
        · omega
        · exact ih (workerCount + 1) (by omega) c h

/-- Claim C1: at-most-once fetch per canonical URL.  In every state the
concurrent crawl can reach, no two `dataRouter` invocations received
the same canonical URL string; moreover `addURL` only ever grows the
visited set, and an offer whose canonical string is already visited is
a no-op, because the check and the mark happen in one critical
section at discovery time. -/
theorem visited_dedup_at_most_once_fetch
    (targets : List GoURL) (pages : String → List GoURL) (s0 s : SysState)
    (h0 : FetchedInv s0.base) (hr : Reach targets pages s0 s) :
    (s.base.fetched.map urlString).Nodup ∧
    (∀ st u, st.visited ⊆ (addURL targets st u).visited) ∧
    (∀ st u, urlString (stripFragment u) ∈ st.visited →
      addURL targets st u = st) := by
  refine ⟨?_, ?_, ?_⟩
  · exact (reach_base_inv targets pages FetchedInv
      (fetchedInv_addURL targets) s0 s h0 hr).2
  · exact fun st u => visited_mono targets st u
  · exact fun st u h => addURL_noop_of_visited targets st u h

/-- Witness for C1 at the concrete seed crawl of `http://a.com/`. -/
theorem visited_dedup_at_most_once_fetch_witness :
    ((initSys [seedA] (fun _ => []) [seedA]).base.fetched.map
      urlString).Nodup ∧
    (∀ st u, st.visited ⊆ (addURL [seedA] st u).visited) ∧
    (∀ st u, urlString (stripFragment u) ∈ st.visited →
      addURL [seedA] st u = st) :=
  visited_dedup_at_most_once_fetch [seedA] (fun _ => [])
    (initSys [seedA] (fun _ => []) [seedA]) _ (by decide) (Reach.refl _)

/-- Claim C2: every URL ever handed to the fetcher passed the
whitelist when it was enqueued, and the whitelist test holds iff some
seed target has an equal scheme and an equal host (port included)
under case-insensitive comparison. -/
theorem fetched_urls_whitelisted
    (targets : List GoURL) (pages : String → List GoURL) (s0 s : SysState)
    (h0 : ScopeInv targets s0.base) (hr : Reach targets pages s0 s) :
    (∀ v ∈ s.base.fetched, isWhitelisted targets v = true) ∧
    (∀ u, isWhitelisted targets u = true ↔
      ∃ t ∈ targets, goToLower u.scheme = goToLower t.scheme ∧
        goToLower u.host = goToLower t.host) := by
  constructor
  · exact reach_base_inv targets pages (ScopeInv targets)
      (scopeInv_addURL targets) s0 s h0 hr
  · intro u
    simp [isWhitelisted, List.any_eq_true]

/-- Witness for C2 at the concrete seed crawl of `http://a.com/`. -/
theorem fetched_urls_whitelisted_witness :
    (∀ v ∈ (initSys [seedA] (fun _ => []) [seedA]).base.fetched,
      isWhitelisted [seedA] v = true) ∧
    (∀ u, isWhitelisted [seedA] u = true ↔
      ∃ t ∈ [seedA], goToLower u.scheme = goToLower t.scheme ∧
        goToLower u.host = goToLower t.host) :=
  fetched_urls_whitelisted [seedA] (fun _ => [])
    (initSys [seedA] (fun _ => []) [seedA]) _ (by decide) (Reach.refl _)

/-- Claim C3: the `URLsInProcess` counter always equals the number of
live workers, so `URLsInProcess.Wait()` in `main` returns exactly when
no worker is live, and a state with counter zero admits no further
step: the completion check cannot race with an in-flight worker whose
offers are still pending. -/
theorem wait_group_termination
    (targets : List GoURL) (pages : String → List GoURL) (s0 s : SysState)
    (h0 : s0.counter = s0.workers.length)
    (hr : Reach targets pages s0 s) :
    s.counter = s.workers.length ∧
    (s.counter = 0 ↔ s.workers = []) ∧
    (s.counter = 0 → ∀ t, ¬ Step targets pages s t) := by
  have hinv := reach_counterInv targets pages s0 s h0 hr
  have hempty : s.counter = 0 → s.workers = [] := by
    intro hc
    rw [hc] at hinv
    exact List.length_eq_zero.mp hinv.symm
  refine ⟨hinv, ⟨hempty, ?_⟩, ?_⟩
  · intro hw
    rw [hinv, hw]
    rfl
  · intro hc t
    exact no_step_of_no_workers targets pages s (hempty hc) t

/-- Witness for C3 at the concrete seed crawl of `http://a.com/`. -/
theorem wait_group_termination_witness :
    (initSys [seedA] (fun _ => []) [seedA]).counter =
      (initSys [seedA] (fun _ => []) [seedA]).workers.length ∧
    ((initSys [seedA] (fun _ => []) [seedA]).counter = 0 ↔
      (initSys [seedA] (fun _ => []) [seedA]).workers = []) ∧
    ((initSys [seedA] (fun _ => []) [seedA]).counter = 0 →
      ∀ t, ¬ Step [seedA] (fun _ => [])
        (initSys [seedA] (fun _ => []) [seedA]) t) :=
  wait_group_termination [seedA] (fun _ => [])
    (initSys [seedA] (fun _ => []) [seedA]) _ (by decide) (Reach.refl _)

/-- Claim C4 (code defect): the href `//cdn.a.com/x`, parsed with
empty scheme and host `cdn.a.com`, has a string form starting with
`/`, so `getAnchors` takes the root-relative branch and overwrites the
host of the href with the host of the base page: the result is
`http://a.com/x`, not `http://cdn.a.com/x` as the scheme-relative
treatment would give.  The dedicated `//` branch is unreachable. -/
theorem scheme_relative_branch_bug :
    urlString hrefSchemeRel = "//cdn.a.com/x" ∧
    hrefSchemeRel.scheme = "" ∧
    normalizeHref baseA hrefSchemeRel =
      some { scheme := "http", host := "a.com", path := "/x", query := "",
             fragment := "" } ∧
    (normalizeHref baseA hrefSchemeRel).map urlString =
      some "http://a.com/x" ∧
    "http://a.com/x" ≠ "http://cdn.a.com/x" := by
  decide

/-- Claim C6: a parsed href with empty scheme whose string form starts
with `/` and not with `//` takes the root-relative branch and inherits
both the scheme and the host of the base page. -/
theorem root_relative_inherits_scheme_and_host
    (base u : GoURL)
    (hscheme : u.scheme = "")
    (h1 : strTake (urlString u) 1 = "/")
    (h2 : strTake (urlString u) 2 ≠ "//") :
    normalizeHref base u =
      some { u with scheme := base.scheme, host := base.host } := by
  simp only [normalizeHref]
  rw [if_pos hscheme]
  have hlen : ¬ (urlString u).data.length < 1 := by
    intro hlt
    have hnil : (urlString u).data = [] :=
      List.length_eq_zero.mp (Nat.lt_one_iff.mp hlt)
    rw [strTake, hnil] at h1
    exact absurd h1 (by decide)
  rw [if_neg hlen, if_pos h1]

/-- Witness for C6: href `/x` on base `http://a.com/dir/page`
normalizes to `http://a.com/x`. -/
theorem root_relative_inherits_scheme_and_host_witness :
    normalizeHref
      { scheme := "http", host := "a.com", path := "/dir/page",
        query := "", fragment := "" }
      { scheme := "", host := "", path := "/x", query := "",
        fragment := "" } =
      some { scheme := "http", host := "a.com", path := "/x", query := "",
             fragment := "" } ∧
    (some { scheme := "http", host := "a.com", path := "/x", query := "",
            fragment := "" } : Option GoURL).map urlString =
      some "http://a.com/x" :=
  ⟨root_relative_inherits_scheme_and_host
    { scheme := "http", host := "a.com", path := "/dir/page",
      query := "", fragment := "" }
    { scheme := "", host := "", path := "/x", query := "",
      fragment := "" }
    rfl (by decide) (by decide), by decide⟩

/-- Counterexample to claim C5: offering the trailing-slash form
`http://a.com/x/` first and then `http://a.com/x` enqueues BOTH, since
`addURL` records only the exact offered string and the later no-slash
offer matches neither recorded form.  The claim said only the first of
the two offers enqueues, in either order. -/
theorem trailing_slash_order_counterexample :
    (runOffers [seedA] initState [urlXSlash, urlXNoSlash]).fetched =
      [urlXSlash, urlXNoSlash] ∧
    urlString urlXSlash = "http://a.com/x/" ∧
    urlString urlXNoSlash = "http://a.com/x" := by
  decide

/-- Claim C5 as amended: when neither form is visited yet, offering
the no-slash form first blocks a later slash-form offer, but offering
the slash form first does not block the later no-slash offer — both
are fetched, because `addURL` marks only the exact offered string and
checks (without recording) the no-slash variant. -/
theorem trailing_slash_asymmetric_dedup
    (st : CrawlState)
    (h1 : "http://a.com/x" ∉ st.visited)
    (h2 : "http://a.com/x/" ∉ st.visited) :
    (addURL [seedA] (addURL [seedA] st urlXNoSlash) urlXSlash =
      addURL [seedA] st urlXNoSlash) ∧
    ((addURL [seedA] (addURL [seedA] st urlXSlash) urlXNoSlash).fetched =
      st.fetched ++ [urlXSlash, urlXNoSlash]) := by
  have hwN : isWhitelisted [seedA] urlXNoSlash = true := by decide
  have hwS : isWhitelisted [seedA] urlXSlash = true := by decide
  have hsN : urlString urlXNoSlash = "http://a.com/x" := by decide
  have hsS : urlString urlXSlash = "http://a.com/x/" := by decide
  have hstripN : stripTrailingSlash "http://a.com/x" = "http://a.com/x" := by
    decide
  have hstripS : stripTrailingSlash "http://a.com/x/" = "http://a.com/x" := by
    decide
  have hfN : stripFragment urlXNoSlash = urlXNoSlash := by decide
  have hfS : stripFragment urlXSlash = urlXSlash := by decide
  have hne : ("http://a.com/x" : String) ≠ "http://a.com/x/" := by decide
  have step1 : addURL [seedA] st urlXNoSlash =
      { visited := "http://a.com/x" :: st.visited,
        fetched := st.fetched ++ [urlXNoSlash] } := by
    simp [addURL, addURLb, hsN, hstripN, hfN, hwN, h1]
  have step2 : addURL [seedA]
      ({ visited := "http://a.com/x" :: st.visited,
         fetched := st.fetched ++ [urlXNoSlash] } : CrawlState) urlXSlash =
      { visited := "http://a.com/x" :: st.visited,
        fetched := st.fetched ++ [urlXNoSlash] } := by
    simp [addURL, addURLb, hfS, hsS, hstripS, hwS]
  have step1s : addURL [seedA] st urlXSlash =
      { visited := "http://a.com/x/" :: st.visited,
        fetched := st.fetched ++ [urlXSlash] } := by
    simp [addURL, addURLb, hsS, hstripS, hfS, hwS, h1, h2]
  have step2s : addURL [seedA]
      ({ visited := "http://a.com/x/" :: st.visited,
         fetched := st.fetched ++ [urlXSlash] } : CrawlState) urlXNoSlash =
      { visited := "http://a.com/x" :: "http://a.com/x/" :: st.visited,
        fetched := (st.fetched ++ [urlXSlash]) ++ [urlXNoSlash] } := by
    simp [addURL, addURLb, hsN, hstripN, hfN, hwN, h1, hne]
  refine ⟨?_, ?_⟩
  · rw [step1, step2]
  · rw [step1s, step2s, List.append_assoc]
    rfl

/-- Witness for the amended C5 at the empty crawl state. -/
theorem trailing_slash_asymmetric_dedup_witness :
    (addURL [seedA] (addURL [seedA] initState urlXNoSlash) urlXSlash =
      addURL [seedA] initState urlXNoSlash) ∧
    ((addURL [seedA] (addURL [seedA] initState urlXSlash)
        urlXNoSlash).fetched =
      initState.fetched ++ [urlXSlash, urlXNoSlash]) :=
  trailing_slash_asymmetric_dedup initState (by decide) (by decide)

/-- Claim C7: the concurrency level maps to the maximum worker counts
1, 5, 10, 20, 50, 100 for levels 0 to 5, every unrecognized level
falls back to 20, and the inner dispatch loop never has more than the
configured maximum workers in flight (at most 1 for level 0, at most
20 for the default level 3). -/
theorem concurrency_level_mapping :
    maxWorkersOfLevel 0 = 1 ∧ maxWorkersOfLevel 1 = 5 ∧
    maxWorkersOfLevel 2 = 10 ∧ maxWorkersOfLevel 3 = 20 ∧
    maxWorkersOfLevel 4 = 50 ∧ maxWorkersOfLevel 5 = 100 ∧
    (∀ level, level ≠ 0 → level ≠ 1 → level ≠ 2 → level ≠ 4 →
      level ≠ 5 → maxWorkersOfLevel level = 20) ∧
    (∀ queue c, c ∈ loopCounts (maxWorkersOfLevel 0) queue 0 → c ≤ 1) ∧
    (∀ queue c, c ∈ loopCounts (maxWorkersOfLevel 3) queue 0 → c ≤ 20) := by
  refine ⟨rfl, rfl, rfl, rfl, rfl, rfl, ?_, ?_, ?_⟩
  · intro level hl0 hl1 hl2 hl4 hl5
    simp [maxWorkersOfLevel, hl0, hl1, hl2, hl4, hl5]
  · intro queue c hc
    exact loopCounts_le 1 (by decide) queue 0 (by decide) c hc
  · intro queue c hc
    exact loopCounts_le 20 (by decide) queue 0 (by decide) c hc

/-- Witness for C7: level 6 is unrecognized and maps to 20, and a
three-element queue at level 0 never has more than one worker in
flight. -/
theorem concurrency_level_mapping_witness :
    maxWorkersOfLevel 6 = 20 ∧
    (∀ c ∈ loopCounts (maxWorkersOfLevel 0) [seedA, urlXSlash, urlXNoSlash] 0,
      c ≤ 1) := by
  obtain ⟨-, -, -, -, -, -, hdef, hb0, -⟩ := concurrency_level_mapping
  exact ⟨hdef 6 (by decide) (by decide) (by decide) (by decide) (by decide),
    fun c hc => hb0 [seedA, urlXSlash, urlXNoSlash] c hc⟩

/-- Counterexample to claim C8: the page holding
`<input name="q" type="text">` is reconstructed by `getInputs` with
TWO spaces after `<input` (the literal `"<input "` is followed by
`fmt.Sprintf(" %s=...")`, which starts with its own space), so the
emitted line differs from the single-space string quoted in the
claim. -/
theorem input_reconstruction_spacing_counterexample :
    collectInputs examplePage = ["<input  name=\"q\" type=\"text\"></input>"] ∧
    "<input  name=\"q\" type=\"text\"></input>" ≠
      "<input name=\"q\" type=\"text\"></input>" := by
  decide

/-- Claim C8 as amended: a page with no input yields no output block; a
page with inputs yields one block of the bracketed page URL, each
reconstructed element tab-indented on its own line in attribute source
order with newlines stripped (and two spaces after `<input`), and a
trailing blank line. -/
theorem input_output_block_format :
    (∀ document u, collectInputs document = [] →
      getInputsOutput document u = "") ∧
    getInputsOutput examplePage exampleURL =
      "[http://example.com/]\n\t<input  name=\"q\" type=\"text\"></input>\n\n" ∧
    getInputsOutput noInputsPage exampleURL = "" ∧
    collectInputs twoInputsPage =
      ["<input  id=\"first\"></input>", "<input  id=\"secondline\"></input>"] := by
  refine ⟨?_, by decide, by decide, by decide⟩
  intro document u h
  simp [getInputsOutput, h]

/-- Witness for the amended C8 at the empty document. -/
theorem input_output_block_format_witness :
    getInputsOutput HtmlNode.nil exampleURL = "" :=
  input_output_block_format.1 HtmlNode.nil exampleURL (by decide)

/-- Claim C9: a GET error or a parse error makes the worker log the
error and abandon exactly that URL; the single response is consumed
with no retry; no outcome of a worker crashes the crawl; and a system
with live workers can always take a step (the crawl continues). -/
theorem per_url_error_recovery (u : GoURL) :
    (∀ msg rest, dataRouterRun u (FetchOutcome.getError msg :: rest) =
      (RouterOutcome.abandoned
        ("[ERROR] [" ++ urlString u ++ "] " ++ msg), rest)) ∧
    (∀ msg rest, dataRouterRun u
        (FetchOutcome.gotBody (ParseOutcome.parseError msg) :: rest) =
      (RouterOutcome.abandoned
        ("[ERROR] [" ++ urlString u ++ "] " ++ msg), rest)) ∧
    (∀ outcome, dataRouterModel u outcome ≠ RouterOutcome.crashed) ∧
    (∀ targets pages s, s.workers ≠ [] → ∃ t, Step targets pages s t) := by
  refine ⟨fun msg rest => rfl, fun msg rest => rfl, ?_, ?_⟩
  · intro outcome
    cases outcome with
    | getError msg => simp [dataRouterModel]
    | gotBody p =>
        cases p <;> simp [dataRouterModel]
  · intro targets pages s h
    exact progress_of_workers targets pages s h

/-- Witness for C9: a refused connection for `http://a.com/` is logged
and abandoned while the remaining stream is untouched, and a state
with one live worker can step. -/
theorem per_url_error_recovery_witness :
    dataRouterRun seedA [FetchOutcome.getError "connection refused"] =
      (RouterOutcome.abandoned "[ERROR] [http://a.com/] connection refused",
        []) ∧
    ∃ t, Step ([] : List GoURL) (fun _ => [])
      { base := initState, workers := [[]], counter := 1 } t := by
  obtain ⟨ha, -, -, hp⟩ := per_url_error_recovery seedA
  refine ⟨(ha "connection refused" []).trans (by decide), ?_⟩
  exact hp [] (fun _ => [])
    { base := initState, workers := [[]], counter := 1 } (by simp)

/-- Claim C10: a successfully parsed scheme-less one-character href
other than `/` (for example `a`) reaches the scheme-relative branch
test of `getAnchors`, whose `urlValue.String()[:2]` slice is out of
range for a one-character string: the embedded branch yields the panic
value instead of a normalized link. -/
theorem one_char_href_panics
    (base u : GoURL)
    (hscheme : u.scheme = "")
    (hlen : (urlString u).data.length = 1)
    (hslash : urlString u ≠ "/") :
    normalizeHref base u = none := by
  simp only [normalizeHref]
  rw [if_pos hscheme]
  have hlen1 : ¬ (urlString u).data.length < 1 := by omega
  rw [if_neg hlen1]
  have htake : strTake (urlString u) 1 = urlString u := by
    unfold strTake
    rw [List.take_of_length_le (by omega), string_mk_data]
  rw [htake, if_neg hslash]
  rw [if_pos (by omega : (urlString u).data.length < 2)]

/-- Witness for C10: the parse of href `a` (empty scheme, path `a`)
panics in the branch test. -/
theorem one_char_href_panics_witness :
    normalizeHref baseA
      { scheme := "", host := "", path := "a", query := "",
        fragment := "" } = none :=
  one_char_href_panics baseA
    { scheme := "", host := "", path := "a", query := "", fragment := "" }
    rfl (by decide) (by decide)

end InputFieldFinder
